import Mathlib

/-!
# kube-linode: cluster-membership reconciliation

A shallow embedding of the two programs of the repository,
`cmd/kube-mongo/main.go` and `cmd/kube-nginx/main.go`.

Both programs poll the Kubernetes control plane for the node list
(`getKubeNodes`), compare the fetched address list with the one of the
previous iteration (`isDiff`) and, when they differ, rebuild a downstream
artifact: the iptables chain `mongodb` (`BuildMongoChain`) or the nginx
upstream file (`buildNginx`, `writeNginx`, `NginxReload`).

Conventions of the embedding

* Go slices are Lean lists; a `for ... range` loop with mutable accumulators
  is a `List.foldl` whose accumulator holds the loop's variables.
* Go strings are Lean strings (all text the programs generate is ASCII).
* The packages the programs import (`net`, `strings`, `os`, `bufio`,
  `go-iptables`, `client-go`) are not part of the repository.  `net.IP`,
  its `String` method and `net.ParseIP` are a parameter (`GoLib.Net`), so every
  theorem holds for whatever these functions compute; the other library calls
  are given their documented behaviour, with the failures of the outside world
  supplied as explicit inputs.
* Logging is not modelled.
* The goroutine of `main` loops forever; one iteration of that loop is the
  function `cycle`.
-/

set_option autoImplicit false
set_option linter.dupNamespace false
set_option maxRecDepth 100000

/-! ## The library calls the programs make -/

namespace GoLib

/-- The part of Go's `net` package the programs use: the type `net.IP`, the method
`IP.String` and the function `net.ParseIP` (which yields the nil address on malformed
text). -/
structure Net where
  /-- The type `net.IP`. -/
  IP : Type
  /-- The method `func (ip IP) String() string`. -/
  IPString : IP → String
  /-- The function `func ParseIP(s string) IP`. -/
  ParseIP : String → IP

/-- The loop of `strings.Split` for a one-character separator: `cur` holds, reversed,
the characters of the piece being read. -/
def splitLoop (sep : Char) : List Char → List Char → List String
  | [], cur => [String.mk cur.reverse]
  | c :: cs, cur =>
    if c = sep then String.mk cur.reverse :: splitLoop sep cs []
    else splitLoop sep cs (c :: cur)

/-- Go `strings.Split(s, sep)` for a separator of one character: the pieces of `s`
between the occurrences of `sep`. -/
def Split (s : String) (sep : Char) : List String :=
  splitLoop sep s.data []

/-- The part of a `v1.Node` the programs read: its annotations, a map from keys to
values (the list holds the bindings of the map, one per key). -/
structure Node where
  /-- The field `ObjectMeta.Annotations`. -/
  Annotations : List (String × String)

/-- What `clientset.CoreV1().Nodes().List(...)` handed back: the pointer `nodes` (`none`
is the nil pointer, `some items` a node list with these `Items`) and the error `err`
(`none` is nil). -/
structure ListResult where
  /-- The items of the returned node list. -/
  nodes : Option (List Node)
  /-- The returned error. -/
  err : Option String

/-- One iptables rule, as the words of its rulespec. -/
abbrev Rulespec := List String

/-- The packet filter of the host: for a table and a chain name the rules of that chain
in order, `none` when the chain does not exist. -/
abbrev IPTables := String → String → Option (List Rulespec)

/-- The packet filter with the chain `chain` of `table` set to `rules`. -/
def IPTables.set (t : IPTables) (table chain : String) (rules : List Rulespec) : IPTables :=
  fun tb ch => if tb = table ∧ ch = chain then some rules else t tb ch

/-- Go `ipt.ChainExists(table, chain)`; `fault` says that the command failed for a reason
of the host, in which case the answer is `false` with an error. -/
def ChainExists (t : IPTables) (fault : Bool) (table chain : String) :
    Bool × Option String :=
  if fault then (false, some "iptables: command failed")
  else ((t table chain).isSome, none)

/-- Go `ipt.ClearChain(table, chain)`: flush the chain, creating it when it does not
exist.  A failed command leaves the packet filter as it was. -/
def ClearChain (t : IPTables) (fault : Bool) (table chain : String) :
    IPTables × Option String :=
  if fault then (t, some "iptables: command failed")
  else (t.set table chain [], none)

/-- Go `ipt.NewChain(table, chain)`: create the chain, an error when it exists already.
A failed command leaves the packet filter as it was. -/
def NewChain (t : IPTables) (fault : Bool) (table chain : String) :
    IPTables × Option String :=
  if fault then (t, some "iptables: command failed")
  else
    match t table chain with
    | some _ => (t, some "iptables: Chain already exists.")
    | none => (t.set table chain [], none)

/-- Go `ipt.Append(table, chain, rulespec...)`: add the rule at the end of the chain, an
error when the chain does not exist.  A failed command leaves the packet filter as it
was. -/
def Append (t : IPTables) (fault : Bool) (table chain : String) (rulespec : Rulespec) :
    IPTables × Option String :=
  if fault then (t, some "iptables: command failed")
  else
    match t table chain with
    | none => (t, some "iptables: No chain/target/match by that name.")
    | some rules => (t.set table chain (rules ++ [rulespec]), none)

/-- Go `ipt.List(table, chain)`: the rules of the chain. -/
def ListRules (t : IPTables) (fault : Bool) (table chain : String) :
    List Rulespec × Option String :=
  if fault then ([], some "iptables: command failed")
  else
    match t table chain with
    | none => ([], some "iptables: No chain/target/match by that name.")
    | some rules => (rules, none)

/-- The flag `os.O_WRONLY`. -/
def O_WRONLY : Nat := 0x1

/-- The flag `os.O_CREATE`. -/
def O_CREATE : Nat := 0x40

/-- The flag `os.O_TRUNC`. -/
def O_TRUNC : Nat := 0x200

/-- Go `os.OpenFile(name, flag, perm)` on a file whose content is `file` (`none`: there is
no such file).  The result is the content of the file once it is open, the write offset
being 0: a missing file is created empty under `O_CREATE`, an existing file is emptied
under `O_TRUNC` and kept as it is otherwise.  `fault` says that the open failed for a
reason of the host. -/
def OpenFile (file : Option String) (fault : Bool) (flag : Nat) : Except String String :=
  if fault then .error "open: permission denied"
  else
    match file with
    | none => if flag &&& O_CREATE ≠ 0 then .ok "" else .error "open: no such file or directory"
    | some content => if flag &&& O_TRUNC ≠ 0 then .ok "" else .ok content

/-- The content of a file that held `content` after `data` was written to it from
offset 0: the written bytes replace the bytes at the same positions and the file grows
when `data` is longer; what lies beyond the written bytes stays. -/
def writeFromStart (content data : String) : String :=
  String.mk (data.data ++ content.data.drop data.data.length)

/-- Append the error of a call, when there is one, to the errors seen so far (the
branches `if err != nil` of the programs). -/
def seen (errs : List String) (err : Option String) : List String :=
  match err with
  | none => errs
  | some e => errs ++ [e]

end GoLib

/-! ## cmd/kube-mongo/main.go -/

namespace KubeMongo

open GoLib

/-- Which packet-filter commands of one call of `BuildMongoChain` fail for a reason of
the host (an input of the model; `append n` is about the `n`-th call of `Append`,
counted from 0). -/
structure Faults where
  /-- The call of `ChainExists` fails. -/
  chainExists : Bool
  /-- The call of `ClearChain` fails. -/
  clearChain : Bool
  /-- The call of `NewChain` fails. -/
  newChain : Bool
  /-- The `n`-th call of `Append` fails. -/
  append : Nat → Bool
  /-- The call of `List` fails. -/
  list : Bool

/-- No command fails for a reason of the host. -/
def Faults.none : Faults :=
  { chainExists := false, clearChain := false, newChain := false,
    append := fun _ => false, list := false }

/-- The rule `BuildMongoChain` appends for the address `i`:
`-s <i> -p tcp -m tcp --dport 27017 -j ACCEPT`. -/
def acceptRule (net : Net) (i : net.IP) : Rulespec :=
  ["-s", net.IPString i, "-p", "tcp", "-m", "tcp", "--dport", "27017", "-j", "ACCEPT"]

/-- The state of the loop `for _, i := range ipList` of `BuildMongoChain`: the packet
filter, the errors seen, and the number of calls of `Append` made. -/
structure AppendLoop where
  /-- The packet filter. -/
  ipt : IPTables
  /-- The errors seen so far. -/
  errs : List String
  /-- The number of calls of `Append` made so far. -/
  calls : Nat

/-- The body of the loop `for _, i := range ipList` of `BuildMongoChain`: one call of
`Append`, whose error is only looked at. -/
def appendStep (net : Net) (f : Faults) (st : AppendLoop) (i : net.IP) : AppendLoop :=
  let (ipt, err) := GoLib.Append st.ipt (f.append st.calls) "filter" "mongodb" (acceptRule net i)
  { ipt := ipt, errs := seen st.errs err, calls := st.calls + 1 }

/-- Go `func BuildMongoChain(ipList []net.IP)`, taking the handle `iptables.New()` as
obtained.  The function returns nothing; the result here is the packet filter it leaves
and the errors its `if err != nil` branches saw (it acts on none of them). -/
def BuildMongoChain (net : Net) (f : Faults) (ipList : List net.IP) (ipt : IPTables) :
    IPTables × List String :=
  let (ok, err) := ChainExists ipt f.chainExists "filter" "mongodb"
  let errs := seen [] err
  let (ipt, errs) :=
    if ok then
      let (ipt, err) := ClearChain ipt f.clearChain "filter" "mongodb"
      (ipt, seen errs err)
    else
      let (ipt, err) := NewChain ipt f.newChain "filter" "mongodb"
      (ipt, seen errs err)
  let st := ipList.foldl (appendStep net f) { ipt := ipt, errs := errs, calls := 0 }
  let (_, err) := ListRules st.ipt f.list "filter" "mongodb"
  (st.ipt, seen st.errs err)

/-- The loop `for _, val := range nodes.Items` of `getKubeNodes`, with its variables
`results` and `available`.  Indexing the result of `strings.Split` at 0 is a run-time
panic when that result is empty. -/
def getKubeNodesLoop (net : Net) : List Node → List net.IP → Nat →
    Except String (List net.IP × Nat)
  | [], results, available => .ok (results, available)
  | val :: rest, results, available =>
    match val.Annotations.lookup "projectcalico.org/IPv4Address" with
    | some strIP =>
      match Split strIP '/' with
      | [] => .error "index out of range [0] with length 0"
      | first :: _ =>
        let IPAddress := net.ParseIP first
        getKubeNodesLoop net rest (results ++ [IPAddress]) (available + 1)
    | none => getKubeNodesLoop net rest results available

/-- Go `func getKubeNodes(kubeconfig *string) ([]net.IP, error)` from the call of
`Nodes().List` on, whose outcome is `r`.  An error of that call is only looked at
(`if err != nil \x7b log.Error().Err(err) \x7d`) and the function goes on to read
`nodes.Items`, a run-time panic when `nodes` is nil.  The error returned is always
nil. -/
def getKubeNodes (net : Net) (r : ListResult) : Except String (List net.IP × Option String) :=
  match r.nodes with
  | none => .error "invalid memory address or nil pointer dereference"
  | some items =>
    match getKubeNodesLoop net items [] 0 with
    | .error p => .error p
    | .ok (results, _) => .ok (results, none)

/-- The inner loop of `isDiff` for one address `v` of `oldHosts`: walk `newHosts`, and at
the first `k` with `v.String() == k.String()` add one to `matches` (here `nmatches`) and `break`. -/
def isDiffInner (net : Net) (v : net.IP) : List net.IP → Nat → Nat
  | [], nmatches => nmatches
  | k :: ks, nmatches =>
    if net.IPString v = net.IPString k then nmatches + 1
    else isDiffInner net v ks nmatches

/-- Go `func isDiff(oldHosts []net.IP, newHosts []net.IP) bool`. -/
def isDiff (net : Net) (oldHosts newHosts : List net.IP) : Bool :=
  if newHosts.length ≠ oldHosts.length then
    true
  else
    let nmatches := oldHosts.foldl (fun nmatches v => isDiffInner net v newHosts nmatches) 0
    if nmatches ≠ newHosts.length then
      true
    else
      false

/-- The variables of the goroutine of `main` and the world it acts on. -/
structure Loop (net : Net) where
  /-- The variable `oldHosts`. -/
  oldHosts : List net.IP
  /-- The packet filter of the host. -/
  ipt : IPTables
  /-- The arguments of the calls of `BuildMongoChain` made so far, oldest first. -/
  applied : List (List net.IP)
  /-- The errors `BuildMongoChain` saw so far. -/
  errs : List String

/-- The state in which the goroutine starts: `oldHosts` is nil. -/
def Loop.start (net : Net) (ipt : IPTables) : Loop net :=
  { oldHosts := [], ipt := ipt, applied := [], errs := [] }

/-- One iteration of the `for` loop of `main` (the sleeps apart): `r` is the outcome of
the node listing and `f` the failures the packet filter meets in this iteration.
`.error` is a run-time panic, which ends the process. -/
def cycle (net : Net) (r : ListResult) (f : Faults) (s : Loop net) : Except String (Loop net) :=
  match getKubeNodes net r with
  | .error p => .error p
  | .ok (newHosts, _) =>
    let s :=
      if isDiff net newHosts s.oldHosts then
        let (ipt, errs) := BuildMongoChain net f newHosts s.ipt
        { s with ipt := ipt, applied := s.applied ++ [newHosts], errs := s.errs ++ errs }
      else s
    .ok { s with oldHosts := newHosts }

end KubeMongo

/-! ## cmd/kube-nginx/main.go -/

namespace KubeNginx

open GoLib

/-- Go `type upstream struct \x7b upstream string; port int \x7d`. -/
structure upstream where
  /-- The field `upstream`: the name of the block. -/
  upstream : String
  /-- The field `port`. -/
  port : Int

/-- Which calls to the host fail in one apply of kube-nginx (an input of the model). -/
structure Faults where
  /-- The call `os.OpenFile` fails. -/
  openErr : Bool
  /-- Writing fails: `some n` says that only the first `n` bytes reach the file. -/
  writeErr : Option Nat
  /-- Starting the reload command fails. -/
  reloadErr : Bool

/-- No call to the host fails. -/
def Faults.none : Faults :=
  { openErr := false, writeErr := Option.none, reloadErr := false }

/-- Go `func NginxReload(systemctlcmd string)`: run `<systemctlcmd> reload nginx`.  The
function returns nothing; the result here is the list of the reload commands issued so
far, with this one added, and whether starting it failed (the function only looks at
that). -/
def NginxReload (f : Faults) (systemctlcmd : String) (reloads : List (List String)) :
    List (List String) × List String :=
  (reloads ++ [[systemctlcmd, "reload", "nginx"]],
    if f.reloadErr then ["exec: command failed"] else [])

/-- Go `func buildNginx(ipList []net.IP) []string`. -/
def buildNginx (net : Net) (ipList : List net.IP) : List String :=
  let totalConfig : List String := []
  let upstreams : List upstream := []
  let diy : upstream := { upstream := "diy", port := 32016 }
  let upstreams := upstreams ++ [diy]
  let dockerui : upstream := { upstream := "dockerui", port := 32018 }
  let upstreams := upstreams ++ [dockerui]
  let tryingadventure : upstream := { upstream := "tryingadventure", port := 32020 }
  let upstreams := upstreams ++ [tryingadventure]
  let monitor : upstream := { upstream := "monitor", port := 32699 }
  let upstreams := upstreams ++ [monitor]
  upstreams.foldl (fun totalConfig k =>
      let totalConfig := totalConfig ++ ["upstream " ++ k.upstream ++ " \x7b"]
      let totalConfig := ipList.foldl (fun totalConfig i =>
          totalConfig ++ ["server " ++ net.IPString i ++ ":" ++ toString k.port ++ " weight=100;"])
        totalConfig
      totalConfig ++ ["\x7d"])
    totalConfig

/-- Go `func writeNginx(ngixConfig []string, config string)` on a file `config` whose
content is `file` (`none`: no such file).  The function returns nothing; the result
here is the file it leaves and the errors it met (it acts on none of them).  When the
open fails the handle is nil and no write reaches the file.  The buffered writer hands
the lines, each followed by a newline, to the file in order from offset 0. -/
def writeNginx (f : Faults) (ngixConfig : List String) (file : Option String) :
    Option String × List String :=
  match OpenFile file f.openErr (O_CREATE ||| O_WRONLY) with
  | .error e => (file, [e])
  | .ok content =>
    let buffered := ngixConfig.foldl (fun buffered data => buffered ++ (data ++ "\n")) ""
    match f.writeErr with
    | Option.none => (some (writeFromStart content buffered), [])
    | some n => (some (writeFromStart content (String.mk (buffered.data.take n))),
        ["write: no space left on device"])

/-- The loop `for _, val := range nodes.Items` of `getKubeNodes`, with its variables
`results` and `available`.  Indexing the result of `strings.Split` at 0 is a run-time
panic when that result is empty. -/
def getKubeNodesLoop (net : Net) : List Node → List net.IP → Nat →
    Except String (List net.IP × Nat)
  | [], results, available => .ok (results, available)
  | val :: rest, results, available =>
    match val.Annotations.lookup "projectcalico.org/IPv4Address" with
    | some strIP =>
      match Split strIP '/' with
      | [] => .error "index out of range [0] with length 0"
      | first :: _ =>
        let IPAddress := net.ParseIP first
        getKubeNodesLoop net rest (results ++ [IPAddress]) (available + 1)
    | Option.none => getKubeNodesLoop net rest results available

/-- Go `func getKubeNodes(kubeconfig *string) ([]net.IP, error)` from the call of
`Nodes().List` on, whose outcome is `r`.  An error of that call is a
`panic(err.Error())`.  The error returned is always nil. -/
def getKubeNodes (net : Net) (r : ListResult) : Except String (List net.IP × Option String) :=
  match r.err with
  | some e => .error e
  | Option.none =>
    match r.nodes with
    | Option.none => .error "invalid memory address or nil pointer dereference"
    | some items =>
      match getKubeNodesLoop net items [] 0 with
      | .error p => .error p
      | .ok (results, _) => .ok (results, Option.none)

/-- The inner loop of `isDiff` for one address `v` of `oldHosts`: walk `newHosts`, and at
the first `k` with `v.String() == k.String()` add one to `matches` (here `nmatches`) and `break`. -/
def isDiffInner (net : Net) (v : net.IP) : List net.IP → Nat → Nat
  | [], nmatches => nmatches
  | k :: ks, nmatches =>
    if net.IPString v = net.IPString k then nmatches + 1
    else isDiffInner net v ks nmatches

/-- Go `func isDiff(oldHosts []net.IP, newHosts []net.IP) bool`. -/
def isDiff (net : Net) (oldHosts newHosts : List net.IP) : Bool :=
  if newHosts.length ≠ oldHosts.length then
    true
  else
    let nmatches := oldHosts.foldl (fun nmatches v => isDiffInner net v newHosts nmatches) 0
    if nmatches ≠ newHosts.length then
      true
    else
      false

/-- The variables of the goroutine of `main` and the world it acts on. -/
structure Loop (net : Net) where
  /-- The variable `oldHosts`. -/
  oldHosts : List net.IP
  /-- The file named by the flag `config` (`none`: no such file). -/
  file : Option String
  /-- The reload commands issued so far, oldest first. -/
  reloads : List (List String)
  /-- The arguments of the calls of `buildNginx` made so far, oldest first. -/
  applied : List (List net.IP)
  /-- The errors `writeNginx` and `NginxReload` saw so far. -/
  errs : List String

/-- The state in which the goroutine starts: `oldHosts` is nil. -/
def Loop.start (net : Net) (file : Option String) : Loop net :=
  { oldHosts := [], file := file, reloads := [], applied := [], errs := [] }

/-- One iteration of the `for` loop of `main` (the sleeps apart): `r` is the outcome of
the node listing, `f` the failures the host meets in this iteration and `systemctl` the
value of the flag of that name.  `.error` is a run-time panic, which ends the
process. -/
def cycle (net : Net) (systemctl : String) (r : ListResult) (f : Faults) (s : Loop net) :
    Except String (Loop net) :=
  match getKubeNodes net r with
  | .error p => .error p
  | .ok (newHosts, _) =>
    let s :=
      if isDiff net newHosts s.oldHosts then
        let configs := buildNginx net newHosts
        let (file, werrs) := writeNginx f configs s.file
        let (reloads, rerrs) := NginxReload f systemctl s.reloads
        { s with file := file, reloads := reloads, applied := s.applied ++ [newHosts],
                 errs := s.errs ++ werrs ++ rerrs }
      else s
    .ok { s with oldHosts := newHosts }

end KubeNginx

/-! ## A concrete `net` package, for evaluating the programs on examples -/

namespace GoLib

/-- The value of a string of decimal digits, `none` when the string is empty or holds
another character. -/
def decimal? (s : String) : Option Nat :=
  if s.data = [] then none
  else
    s.data.foldl (fun acc c =>
        match acc with
        | some n => if c.isDigit then some (10 * n + (c.toNat - 48)) else none
        | none => none)
      (some 0)

/-- One field of a dotted-quad IPv4 address: decimal, at most 255, no leading zero. -/
def octet? (s : String) : Option Nat :=
  match decimal? s with
  | some n => if n ≤ 255 ∧ (s.data.length = 1 ∨ s.data.head? ≠ some '0') then some n else none
  | none => none

/-- The twelve bytes that precede an IPv4 address in its 16-byte form. -/
def v4InV6Prefix : List Nat := [0, 0, 0, 0, 0, 0, 0, 0, 0, 0, 0xff, 0xff]

/-- Dotted-quad text of four bytes. -/
def dotted : List Nat → String
  | [a, b, c, d] => toString a ++ "." ++ toString b ++ "." ++ toString c ++ "." ++ toString d
  | _ => "?"

/-- The IPv4 fragment of Go's `net` package: an address is its byte slice (nil is the
empty list), `ParseIP` reads dotted-quad text into the 16-byte form Go returns and yields
nil on any other text, and `String` prints `<nil>` for nil and dotted-quad text for the
4-byte and the 16-byte form of an IPv4 address.  IPv6 text and addresses lie outside this
fragment.  It serves to evaluate the programs on examples; the general theorems do not
depend on it. -/
@[reducible] def ipv4 : Net where
  IP := List Nat
  IPString := fun ip =>
    if ip = [] then "<nil>"
    else if ip.length = 4 then dotted ip
    else if ip.length = 16 ∧ ip.take 12 = v4InV6Prefix then dotted (ip.drop 12)
    else "?"
  ParseIP := fun s =>
    match (Split s '.').map octet? with
    | [some a, some b, some c, some d] => v4InV6Prefix ++ [a, b, c, d]
    | _ => []

/-- A node whose only annotation is `projectcalico.org/IPv4Address` with value `v`. -/
def calicoNode (v : String) : Node :=
  { Annotations := [("projectcalico.org/IPv4Address", v)] }

end GoLib

/-- An address `v` has a counterpart in `l`: some address of `l` has the same string
form. -/
def HasMatch (net : GoLib.Net) (v : net.IP) (l : List net.IP) : Prop :=
  ∃ k ∈ l, net.IPString v = net.IPString k

instance (net : GoLib.Net) (v : net.IP) (l : List net.IP) : Decidable (HasMatch net v l) := by
  unfold HasMatch; infer_instance

/-- The addresses `ten1 = 10.0.0.1` and `ten2 = 10.0.0.2`, as `net.ParseIP` yields them. -/
def ten1 : GoLib.ipv4.IP := GoLib.ipv4.ParseIP "10.0.0.1"

/-- See `ten1`. -/
def ten2 : GoLib.ipv4.IP := GoLib.ipv4.ParseIP "10.0.0.2"

/-- A listing that succeeded with one node, annotated `10.0.0.1/24`. -/
def oneNode : GoLib.ListResult :=
  { nodes := some [GoLib.calicoNode "10.0.0.1/24"], err := none }

/-- A listing that succeeded with two nodes, annotated `10.0.0.1/24` and `10.0.0.2/24`. -/
def twoNodes : GoLib.ListResult :=
  { nodes := some [GoLib.calicoNode "10.0.0.1/24", GoLib.calicoNode "10.0.0.2/24"], err := none }

/-- A listing that failed: the client hands back an empty node list and an error. -/
def failedListing : GoLib.ListResult :=
  { nodes := some [], err := some "connection refused" }

/-- A packet filter without any chain. -/
def noChains : GoLib.IPTables := fun _ _ => none

/-- Every call of `Append` fails, the other commands succeed. -/
def appendFails : KubeMongo.Faults :=
  { chainExists := false, clearChain := false, newChain := false,
    append := fun _ => true, list := false }

/-- The open of the upstream file fails. -/
def openFails : KubeNginx.Faults :=
  { openErr := true, writeErr := none, reloadErr := false }

/-- A packet filter whose chain `mongodb` holds a rule left from before, for `10.0.0.9`. -/
def staleChain : GoLib.IPTables :=
  noChains.set "filter" "mongodb" [KubeMongo.acceptRule GoLib.ipv4 (GoLib.ipv4.ParseIP "10.0.0.9")]

/-! ## Facts about `isDiff` -/

section IsDiff

open GoLib

variable (net : Net)

theorem isDiffInner_eq (v : net.IP) (l : List net.IP) (m : Nat) :
    KubeMongo.isDiffInner net v l m = if HasMatch net v l then m + 1 else m := by
  induction l with
  | nil => simp [KubeMongo.isDiffInner, HasMatch]
  | cons k ks ih =>
    unfold KubeMongo.isDiffInner
    by_cases h : net.IPString v = net.IPString k
    · have : HasMatch net v (k :: ks) := ⟨k, List.mem_cons_self _ _, h⟩
      simp [h, this]
    · rw [if_neg h, ih]
      have : HasMatch net v (k :: ks) ↔ HasMatch net v ks := by
        simp [HasMatch, h]
      simp only [this]

theorem matches_foldl (old new : List net.IP) (m : Nat) :
    old.foldl (fun nmatches v => KubeMongo.isDiffInner net v new nmatches) m
      = m + (old.filter (fun v => decide (HasMatch net v new))).length := by
  induction old generalizing m with
  | nil => simp
  | cons v vs ih =>
    rw [List.foldl_cons, ih, isDiffInner_eq]
    by_cases h : HasMatch net v new
    · simp [h]; omega
    · simp [h]

theorem isDiff_false_iff (old new : List net.IP) :
    KubeMongo.isDiff net old new = false ↔
      old.length = new.length ∧ ∀ v ∈ old, HasMatch net v new := by
  unfold KubeMongo.isDiff
  by_cases hl : new.length = old.length
  · simp only [hl, ne_eq, not_true_eq_false, if_false, matches_foldl, Nat.zero_add]
    have hle := List.length_filter_le (fun v => decide (HasMatch net v new)) old
    constructor
    · intro h
      have h2 : (old.filter (fun v => decide (HasMatch net v new))).length = old.length := by
        by_contra hc
        simp [hc] at h
      refine ⟨trivial, fun v hv => ?_⟩
      have := (List.filter_eq_self.mp (List.Sublist.eq_of_length
        (List.filter_sublist _) h2)) v hv
      simpa using this
    · rintro ⟨-, h⟩
      have : old.filter (fun v => decide (HasMatch net v new)) = old :=
        List.filter_eq_self.mpr (fun v hv => by simpa using h v hv)
      simp [this]
  · have hl2 : ¬ old.length = new.length := fun h => hl h.symm
    simp [hl, hl2]

theorem nginx_isDiffInner_eq (v : net.IP) (l : List net.IP) (m : Nat) :
    KubeNginx.isDiffInner net v l m = KubeMongo.isDiffInner net v l m := by
  induction l with
  | nil => rfl
  | cons k ks ih => simp [KubeNginx.isDiffInner, KubeMongo.isDiffInner, ih]

theorem nginx_isDiff_eq (old new : List net.IP) :
    KubeNginx.isDiff net old new = KubeMongo.isDiff net old new := by
  unfold KubeNginx.isDiff KubeMongo.isDiff
  have : (fun nmatches v => KubeNginx.isDiffInner net v new nmatches)
      = (fun nmatches v => KubeMongo.isDiffInner net v new nmatches) := by
    funext m v; exact nginx_isDiffInner_eq net v new m
  rw [this]

theorem hasMatch_iff_mem_map (v : net.IP) (l : List net.IP) :
    HasMatch net v l ↔ net.IPString v ∈ l.map net.IPString := by
  unfold HasMatch
  simp only [List.mem_map]
  constructor
  · rintro ⟨k, hk, h⟩; exact ⟨k, hk, h.symm⟩
  · rintro ⟨k, hk, h⟩; exact ⟨k, hk, h.symm⟩

theorem isDiff_false_iff_subset (old new : List net.IP) :
    KubeMongo.isDiff net old new = false ↔
      old.length = new.length ∧ old.map net.IPString ⊆ new.map net.IPString := by
  rw [isDiff_false_iff]
  refine and_congr Iff.rfl ⟨fun h x hx => ?_, fun h v hv => ?_⟩
  · obtain ⟨v, hv, rfl⟩ := List.mem_map.mp hx
    exact (hasMatch_iff_mem_map net v new).mp (h v hv)
  · exact (hasMatch_iff_mem_map net v new).mpr (h (List.mem_map_of_mem _ hv))

theorem subset_symm_of_nodup {α : Type} (a b : List α) (ha : a.Nodup)
    (hl : a.length = b.length) (hs : a ⊆ b) : b ⊆ a := by
  classical
  have hp : a.Subperm b := List.subperm_of_subset ha hs
  have hperm : a.Perm b := hp.perm_of_length_le (by omega)
  exact hperm.symm.subset

theorem isDiff_false_swap (A B : List net.IP) (hA : (A.map net.IPString).Nodup)
    (h : KubeMongo.isDiff net A B = false) : KubeMongo.isDiff net B A = false := by
  rw [isDiff_false_iff_subset] at h ⊢
  refine ⟨h.1.symm, subset_symm_of_nodup _ _ hA ?_ h.2⟩
  simpa using h.1

theorem isDiff_symm_of_nodup (A B : List net.IP) (hA : (A.map net.IPString).Nodup)
    (hB : (B.map net.IPString).Nodup) :
    KubeMongo.isDiff net A B = KubeMongo.isDiff net B A := by
  cases hab : KubeMongo.isDiff net A B with
  | false => exact (isDiff_false_swap net A B hA hab).symm
  | true =>
    cases hba : KubeMongo.isDiff net B A with
    | true => rfl
    | false => rw [isDiff_false_swap net B A hB hba] at hab; exact absurd hab (by simp)

theorem isDiff_false_of_perm (A B : List net.IP) (h : B.Perm A) :
    KubeMongo.isDiff net A B = false := by
  rw [isDiff_false_iff_subset]
  exact ⟨h.length_eq.symm, (h.symm.map _).subset⟩

end IsDiff

/-! ## The claims about `isDiff` -/

section IsDiffClaims

open GoLib

/-- C1: for all address lists `A` and `B`, `isDiff(A, B)` returns false if and only if `A`
and `B` have the same length and every address of `A` has an address in `B` with exactly
the same string form; in every other case it returns true.  Both programs. -/
theorem isDiff_false_iff_same_length_and_matched (net : Net) (A B : List net.IP) :
    (KubeMongo.isDiff net A B = false ↔
      A.length = B.length ∧ ∀ a ∈ A, ∃ b ∈ B, net.IPString a = net.IPString b) ∧
    (KubeMongo.isDiff net A B = true ↔
      ¬ (A.length = B.length ∧ ∀ a ∈ A, ∃ b ∈ B, net.IPString a = net.IPString b)) ∧
    (KubeNginx.isDiff net A B = false ↔
      A.length = B.length ∧ ∀ a ∈ A, ∃ b ∈ B, net.IPString a = net.IPString b) ∧
    (KubeNginx.isDiff net A B = true ↔
      ¬ (A.length = B.length ∧ ∀ a ∈ A, ∃ b ∈ B, net.IPString a = net.IPString b)) := by
  have h := isDiff_false_iff net A B
  unfold HasMatch at h
  have ht : KubeMongo.isDiff net A B = true ↔
      ¬ (A.length = B.length ∧ ∀ a ∈ A, ∃ b ∈ B, net.IPString a = net.IPString b) := by
    rw [← h]; simp
  refine ⟨h, ht, ?_, ?_⟩
  · rw [nginx_isDiff_eq]; exact h
  · rw [nginx_isDiff_eq]; exact ht

/-- C2, as stated, fails: `A = [10.0.0.1, 10.0.0.2]` has no duplicate, `B` is
`[10.0.0.1, 10.0.0.1]`, and `isDiff(A, B)` is true while `isDiff(B, A)` is false. -/
theorem isDiff_not_symmetric_when_other_has_duplicates :
    ([ten1, ten2].map ipv4.IPString).Nodup ∧
    KubeMongo.isDiff ipv4 [ten1, ten2] [ten1, ten1] = true ∧
    KubeMongo.isDiff ipv4 [ten1, ten1] [ten1, ten2] = false ∧
    KubeNginx.isDiff ipv4 [ten1, ten2] [ten1, ten1] = true ∧
    KubeNginx.isDiff ipv4 [ten1, ten1] [ten1, ten2] = false := by
  decide

/-- C2, amended: for all snapshots `A` and `B` such that neither holds two addresses with
the same string form, `isDiff(A, B) = isDiff(B, A)`.  Both programs. -/
theorem isDiff_symmetric_of_no_duplicates (net : Net) (A B : List net.IP)
    (hA : (A.map net.IPString).Nodup) (hB : (B.map net.IPString).Nodup) :
    KubeMongo.isDiff net A B = KubeMongo.isDiff net B A ∧
    KubeNginx.isDiff net A B = KubeNginx.isDiff net B A := by
  refine ⟨isDiff_symm_of_nodup net A B hA hB, ?_⟩
  rw [nginx_isDiff_eq, nginx_isDiff_eq]
  exact isDiff_symm_of_nodup net A B hA hB

/-- The amended C2 at `A = [10.0.0.1, 10.0.0.2]`, `B = [10.0.0.2, 10.0.0.1]`. -/
theorem isDiff_symmetric_of_no_duplicates_witness :
    ([ten1, ten2].map ipv4.IPString).Nodup ∧ ([ten2, ten1].map ipv4.IPString).Nodup ∧
    (KubeMongo.isDiff ipv4 [ten1, ten2] [ten2, ten1]
        = KubeMongo.isDiff ipv4 [ten2, ten1] [ten1, ten2] ∧
      KubeNginx.isDiff ipv4 [ten1, ten2] [ten2, ten1]
        = KubeNginx.isDiff ipv4 [ten2, ten1] [ten1, ten2]) :=
  ⟨by decide, by decide,
    isDiff_symmetric_of_no_duplicates ipv4 [ten1, ten2] [ten2, ten1] (by decide) (by decide)⟩

end IsDiffClaims

/-! ## Facts about `getKubeNodes` and `cycle` -/

section Fetch

open GoLib

variable (net : Net)

theorem splitLoop_first (sep : Char) (cs cur : List Char) :
    ∃ rest, splitLoop sep cs cur
      = String.mk (cur.reverse ++ cs.takeWhile (fun c => decide (c ≠ sep))) :: rest := by
  induction cs generalizing cur with
  | nil => exact ⟨[], by simp [splitLoop]⟩
  | cons c cs ih =>
    unfold splitLoop
    by_cases h : c = sep
    · exact ⟨splitLoop sep cs [], by simp [h]⟩
    · obtain ⟨rest, hrest⟩ := ih (c :: cur)
      exact ⟨rest, by simp [h, hrest]⟩

theorem Split_first (s : String) (sep : Char) :
    ∃ rest, Split s sep = String.mk (s.data.takeWhile (fun c => decide (c ≠ sep))) :: rest := by
  obtain ⟨rest, h⟩ := splitLoop_first sep s.data []
  exact ⟨rest, by simpa [Split] using h⟩

theorem mongo_loop_eq (items : List Node) (results : List net.IP) (available : Nat) :
    ∃ n, KubeMongo.getKubeNodesLoop net items results available
      = .ok (results ++ items.filterMap (fun val =>
          (val.Annotations.lookup "projectcalico.org/IPv4Address").map (fun strIP =>
            net.ParseIP (String.mk (strIP.data.takeWhile (fun c => decide (c ≠ '/')))))), n) := by
  induction items generalizing results available with
  | nil => exact ⟨available, by simp [KubeMongo.getKubeNodesLoop]⟩
  | cons val rest ih =>
    unfold KubeMongo.getKubeNodesLoop
    cases hl : val.Annotations.lookup "projectcalico.org/IPv4Address" with
    | none =>
      obtain ⟨n, hn⟩ := ih results available
      exact ⟨n, by simp [hl, hn]⟩
    | some strIP =>
      obtain ⟨tail, ht⟩ := Split_first strIP '/'
      obtain ⟨n, hn⟩ := ih (results ++ [net.ParseIP
        (String.mk (strIP.data.takeWhile (fun c => decide (c ≠ '/'))))]) (available + 1)
      refine ⟨n, ?_⟩
      simp only [hl, ht]
      rw [hn, List.filterMap_cons, hl]
      simp only [Option.map_some', List.append_assoc, List.singleton_append]

theorem nginx_loop_eq (items : List Node) (results : List net.IP) (available : Nat) :
    KubeNginx.getKubeNodesLoop net items results available
      = KubeMongo.getKubeNodesLoop net items results available := by
  induction items generalizing results available with
  | nil => rfl
  | cons val rest ih =>
    unfold KubeNginx.getKubeNodesLoop KubeMongo.getKubeNodesLoop
    simp only [ih]

theorem mongo_cycle_of_fetch (r : ListResult) (f : KubeMongo.Faults) (s : KubeMongo.Loop net)
    (newHosts : List net.IP) (e : Option String)
    (hg : KubeMongo.getKubeNodes net r = .ok (newHosts, e)) :
    KubeMongo.cycle net r f s = .ok
      (if KubeMongo.isDiff net newHosts s.oldHosts then
        { oldHosts := newHosts
          ipt := (KubeMongo.BuildMongoChain net f newHosts s.ipt).1
          applied := s.applied ++ [newHosts]
          errs := s.errs ++ (KubeMongo.BuildMongoChain net f newHosts s.ipt).2 }
      else { s with oldHosts := newHosts }) := by
  unfold KubeMongo.cycle
  rw [hg]
  by_cases hd : KubeMongo.isDiff net newHosts s.oldHosts = true
  · simp [hd]
  · simp [hd]

theorem nginx_cycle_of_fetch (systemctl : String) (r : ListResult) (f : KubeNginx.Faults)
    (s : KubeNginx.Loop net) (newHosts : List net.IP) (e : Option String)
    (hg : KubeNginx.getKubeNodes net r = .ok (newHosts, e)) :
    KubeNginx.cycle net systemctl r f s = .ok
      (if KubeNginx.isDiff net newHosts s.oldHosts then
        { oldHosts := newHosts
          file := (KubeNginx.writeNginx f (KubeNginx.buildNginx net newHosts) s.file).1
          reloads := (KubeNginx.NginxReload f systemctl s.reloads).1
          applied := s.applied ++ [newHosts]
          errs := s.errs ++ (KubeNginx.writeNginx f (KubeNginx.buildNginx net newHosts) s.file).2
            ++ (KubeNginx.NginxReload f systemctl s.reloads).2 }
      else { s with oldHosts := newHosts }) := by
  unfold KubeNginx.cycle
  rw [hg]
  by_cases hd : KubeNginx.isDiff net newHosts s.oldHosts = true
  · simp [hd]
  · simp [hd]

theorem getKubeNodes_fetch (items : List Node) (err : Option String) :
    KubeMongo.getKubeNodes net { nodes := some items, err := err }
      = .ok (items.filterMap (fun val =>
          (val.Annotations.lookup "projectcalico.org/IPv4Address").map (fun strIP =>
            net.ParseIP (String.mk (strIP.data.takeWhile (fun c => decide (c ≠ '/')))))), none) ∧
    KubeNginx.getKubeNodes net { nodes := some items, err := none }
      = .ok (items.filterMap (fun val =>
          (val.Annotations.lookup "projectcalico.org/IPv4Address").map (fun strIP =>
            net.ParseIP (String.mk (strIP.data.takeWhile (fun c => decide (c ≠ '/')))))), none) := by
  obtain ⟨n, hn⟩ := mongo_loop_eq net items [] 0
  constructor
  · simp only [KubeMongo.getKubeNodes, hn, List.nil_append]
  · simp only [KubeNginx.getKubeNodes, nginx_loop_eq, hn, List.nil_append]

/-- In kube-nginx a failed node listing is a panic: the iteration does not complete, so
it replaces no snapshot and reaches no applier. -/
theorem nginx_cycle_panics_on_failed_listing (systemctl : String) (nodes : Option (List Node))
    (e : String) (f : KubeNginx.Faults) (s : KubeNginx.Loop net) :
    KubeNginx.cycle net systemctl { nodes := nodes, err := some e } f s = .error e := by
  simp [KubeNginx.cycle, KubeNginx.getKubeNodes]

/-- In kube-mongo a node listing that fails with an empty list while a snapshot is held
makes the iteration call the applier with the empty snapshot and drop the held one. -/
theorem mongo_cycle_on_failed_listing (e : String) (f : KubeMongo.Faults)
    (s : KubeMongo.Loop net) (h : s.oldHosts ≠ []) :
    ∃ s1, KubeMongo.cycle net { nodes := some [], err := some e } f s = .ok s1 ∧
      s1.oldHosts = [] ∧ s1.applied = s.applied ++ [[]] := by
  have hg : KubeMongo.getKubeNodes net { nodes := some [], err := some e } = .ok ([], none) := rfl
  have hd : KubeMongo.isDiff net [] s.oldHosts = true := by
    unfold KubeMongo.isDiff
    have : s.oldHosts.length ≠ 0 := fun h0 => h (List.length_eq_zero.mp h0)
    simp [this]
  refine ⟨_, mongo_cycle_of_fetch net _ f s [] none hg, ?_⟩
  rw [hd]
  simp

end Fetch

/-! ## The claims about `getKubeNodes` and the loop of `main` -/

section FetchClaims

open GoLib

/-- C10: for every node list the control plane returns, `getKubeNodes` returns one entry
per node that carries the annotation `projectcalico.org/IPv4Address`, namely
`net.ParseIP` of the part of the annotation value before the first `/`, in node-list
order; a node without the annotation contributes nothing; the returned error is nil.
Both programs. -/
theorem getKubeNodes_returns_annotated_addresses (net : Net) (items : List Node)
    (err : Option String) :
    KubeMongo.getKubeNodes net { nodes := some items, err := err }
      = .ok (items.filterMap (fun val =>
          (val.Annotations.lookup "projectcalico.org/IPv4Address").map (fun strIP =>
            net.ParseIP (String.mk (strIP.data.takeWhile (fun c => decide (c ≠ '/')))))), none) ∧
    KubeNginx.getKubeNodes net { nodes := some items, err := none }
      = .ok (items.filterMap (fun val =>
          (val.Annotations.lookup "projectcalico.org/IPv4Address").map (fun strIP =>
            net.ParseIP (String.mk (strIP.data.takeWhile (fun c => decide (c ≠ '/')))))), none) := by
  obtain ⟨n, hn⟩ := mongo_loop_eq net items [] 0
  constructor
  · simp only [KubeMongo.getKubeNodes, hn, List.nil_append]
  · simp only [KubeNginx.getKubeNodes, nginx_loop_eq, hn, List.nil_append]

/-- C3: for every snapshot `A` and every reordering `B` of `A`, `isDiff(A, B)` returns
false, so an iteration of the loop that fetches `A` while holding `B` calls no applier
and leaves the packet filter (kube-mongo), the file and the reload commands (kube-nginx)
as they were; in particular `isDiff(A, A)` is false. -/
theorem no_apply_on_reordered_snapshot (net : Net) (A B : List net.IP) (h : B.Perm A) :
    KubeMongo.isDiff net A B = false ∧ KubeMongo.isDiff net A A = false ∧
    KubeNginx.isDiff net A B = false ∧ KubeNginx.isDiff net A A = false ∧
    (∀ (r : ListResult) (f : KubeMongo.Faults) (s : KubeMongo.Loop net) (e : Option String),
      KubeMongo.getKubeNodes net r = .ok (A, e) → s.oldHosts = B →
      ∃ s1, KubeMongo.cycle net r f s = .ok s1 ∧ s1.applied = s.applied ∧ s1.ipt = s.ipt ∧
        s1.errs = s.errs) ∧
    (∀ (systemctl : String) (r : ListResult) (f : KubeNginx.Faults) (s : KubeNginx.Loop net)
        (e : Option String),
      KubeNginx.getKubeNodes net r = .ok (A, e) → s.oldHosts = B →
      ∃ s1, KubeNginx.cycle net systemctl r f s = .ok s1 ∧ s1.applied = s.applied ∧
        s1.file = s.file ∧ s1.reloads = s.reloads) := by
  have hAB := isDiff_false_of_perm net A B h
  have hAA := isDiff_false_of_perm net A A (List.Perm.refl A)
  refine ⟨hAB, hAA, by rw [nginx_isDiff_eq]; exact hAB, by rw [nginx_isDiff_eq]; exact hAA,
    ?_, ?_⟩
  · intro r f s e hg hs
    refine ⟨_, mongo_cycle_of_fetch net r f s A e hg, ?_⟩
    rw [hs, hAB]
    simp
  · intro systemctl r f s e hg hs
    refine ⟨_, nginx_cycle_of_fetch net systemctl r f s A e hg, ?_⟩
    rw [hs, nginx_isDiff_eq, hAB]
    simp

/-- C3 at `A = [10.0.0.1, 10.0.0.2]` fetched while `B = [10.0.0.2, 10.0.0.1]` is held. -/
theorem no_apply_on_reordered_snapshot_witness :
    [ten2, ten1].Perm [ten1, ten2] ∧
    KubeMongo.isDiff ipv4 [ten1, ten2] [ten2, ten1] = false ∧
    (∃ s1, KubeMongo.cycle ipv4 twoNodes KubeMongo.Faults.none
        { oldHosts := [ten2, ten1], ipt := noChains, applied := [[ten2, ten1]], errs := [] }
          = .ok s1 ∧
      s1.applied = [[ten2, ten1]] ∧ s1.ipt = noChains ∧ s1.errs = []) :=
  ⟨List.Perm.swap _ _ _,
    (no_apply_on_reordered_snapshot ipv4 [ten1, ten2] [ten2, ten1] (List.Perm.swap _ _ _)).1,
    (no_apply_on_reordered_snapshot ipv4 [ten1, ten2] [ten2, ten1]
      (List.Perm.swap _ _ _)).2.2.2.2.1 twoNodes KubeMongo.Faults.none
      { oldHosts := [ten2, ten1], ipt := noChains, applied := [[ten2, ten1]], errs := [] }
      none rfl rfl⟩

/-- C4 fails in kube-mongo.  The loop starts, fetches the one node `10.0.0.1` and builds
the chain with its rule.  In the next iteration the node listing fails (the client hands
back an empty list and an error): `getKubeNodes` returns the empty snapshot with a nil
error, `isDiff` is true, `BuildMongoChain` is called with the empty snapshot and flushes
the chain, and `oldHosts` becomes empty. -/
theorem mongo_failed_listing_replaces_snapshot_and_flushes_chain :
    (KubeMongo.getKubeNodes ipv4 failedListing).toOption = some ([], none) ∧
    ((KubeMongo.cycle ipv4 oneNode KubeMongo.Faults.none
        (KubeMongo.Loop.start ipv4 noChains)).toOption.map
      (fun s => (s.oldHosts, s.applied, s.ipt "filter" "mongodb")))
      = some ([ten1], [[ten1]], some [KubeMongo.acceptRule ipv4 ten1]) ∧
    (((KubeMongo.cycle ipv4 oneNode KubeMongo.Faults.none
        (KubeMongo.Loop.start ipv4 noChains)).toOption.bind
      (fun s => (KubeMongo.cycle ipv4 failedListing KubeMongo.Faults.none s).toOption)).map
      (fun s => (s.oldHosts, s.applied, s.ipt "filter" "mongodb")))
      = some ([], [[ten1], []], some []) :=
  ⟨by decide, by decide, by decide⟩

/-- C5, as stated, fails.  The loop of kube-mongo starts and fetches the one node
`10.0.0.1`; `BuildMongoChain` is called and its `Append` fails, so the chain is left
without the rule and an error was seen.  All the same `oldHosts` becomes the fetched
snapshot; the next iteration fetches the same snapshot, finds `isDiff` false and calls
no applier: one call in all, and the chain still lacks the rule. -/
theorem mongo_failed_apply_is_not_retried :
    ((KubeMongo.cycle ipv4 oneNode appendFails
        (KubeMongo.Loop.start ipv4 noChains)).toOption.map
      (fun s => (s.oldHosts, s.applied, s.ipt "filter" "mongodb")))
      = some ([ten1], [[ten1]], some []) ∧
    ((KubeMongo.cycle ipv4 oneNode appendFails
        (KubeMongo.Loop.start ipv4 noChains)).toOption.map (fun s => s.errs.length)) = some 1 ∧
    KubeMongo.isDiff ipv4 [ten1] [ten1] = false ∧
    (((KubeMongo.cycle ipv4 oneNode appendFails
        (KubeMongo.Loop.start ipv4 noChains)).toOption.bind
      (fun s => (KubeMongo.cycle ipv4 oneNode KubeMongo.Faults.none s).toOption)).map
      (fun s => (s.oldHosts, s.applied, s.ipt "filter" "mongodb")))
      = some ([ten1], [[ten1]], some []) :=
  ⟨by decide, by decide, by decide, by decide⟩

/-- C5, amended: in one iteration of the loop that fetches a node list, `oldHosts` is
replaced by the fetched snapshot whatever failures the applier met, so that a following
iteration that fetches the same snapshot again finds `isDiff` false and calls no
applier.  Both programs. -/
theorem held_snapshot_advances_whatever_the_applier_did (net : Net) (items : List Node)
    (err : Option String) :
    (∀ (f : KubeMongo.Faults) (s : KubeMongo.Loop net),
      ∃ s1, KubeMongo.cycle net { nodes := some items, err := err } f s = .ok s1 ∧
        KubeMongo.getKubeNodes net { nodes := some items, err := err } = .ok (s1.oldHosts, none) ∧
        KubeMongo.isDiff net s1.oldHosts s1.oldHosts = false ∧
        ∀ f2 : KubeMongo.Faults,
          ∃ s2, KubeMongo.cycle net { nodes := some items, err := err } f2 s1 = .ok s2 ∧
            s2.applied = s1.applied ∧ s2.ipt = s1.ipt ∧ s2.oldHosts = s1.oldHosts) ∧
    (∀ (systemctl : String) (f : KubeNginx.Faults) (s : KubeNginx.Loop net),
      ∃ s1, KubeNginx.cycle net systemctl { nodes := some items, err := none } f s = .ok s1 ∧
        KubeNginx.getKubeNodes net { nodes := some items, err := none } = .ok (s1.oldHosts, none) ∧
        KubeNginx.isDiff net s1.oldHosts s1.oldHosts = false ∧
        ∀ f2 : KubeNginx.Faults,
          ∃ s2, KubeNginx.cycle net systemctl { nodes := some items, err := none } f2 s1 = .ok s2 ∧
            s2.applied = s1.applied ∧ s2.file = s1.file ∧ s2.reloads = s1.reloads ∧
            s2.oldHosts = s1.oldHosts) := by
  obtain ⟨hM, hN⟩ := getKubeNodes_fetch net items err
  constructor
  · intro f s
    have hself := fun A : List net.IP => isDiff_false_of_perm net A A (List.Perm.refl A)
    refine ⟨_, mongo_cycle_of_fetch net _ f s _ none hM, ?_, ?_, fun f2 => ?_⟩
    · split <;> exact hM
    · exact hself _
    · refine ⟨_, mongo_cycle_of_fetch net _ f2 _ _ none hM, ?_⟩
      split <;> simp [hself]
  · intro systemctl f s
    have hself : ∀ A : List net.IP, KubeNginx.isDiff net A A = false := fun A => by
      rw [nginx_isDiff_eq]; exact isDiff_false_of_perm net A A (List.Perm.refl A)
    refine ⟨_, nginx_cycle_of_fetch net systemctl _ f s _ none hN, ?_, ?_, fun f2 => ?_⟩
    · split <;> exact hN
    · exact hself _
    · refine ⟨_, nginx_cycle_of_fetch net systemctl _ f2 _ _ none hN, ?_⟩
      split <;> simp [hself]

end FetchClaims

/-! ## Facts about `BuildMongoChain` -/

section Chain

open GoLib KubeMongo

variable (net : Net)

theorem seen_eq_nil (errs : List String) (err : Option String) :
    seen errs err = [] ↔ errs = [] ∧ err = none := by
  cases err <;> simp [seen]

theorem set_get (t : IPTables) (table chain : String) (rules : List Rulespec) :
    (t.set table chain rules) table chain = some rules := by
  simp [IPTables.set]

theorem appendStep_ok (f : Faults) (st : AppendLoop) (i : net.IP)
    (h : (appendStep net f st i).errs = []) :
    st.errs = [] ∧ ∀ R, st.ipt "filter" "mongodb" = some R →
      (appendStep net f st i).ipt "filter" "mongodb" = some (R ++ [acceptRule net i]) := by
  unfold appendStep GoLib.Append at h ⊢
  cases hf : f.append st.calls with
  | true => simp [hf, seen] at h
  | false =>
    cases hc : st.ipt "filter" "mongodb" with
    | none => simp [hf, hc, seen] at h
    | some R0 =>
      simp only [hf, hc, Bool.false_eq_true, if_false, seen] at h ⊢
      exact ⟨h, fun R hR => by cases hR; exact set_get _ _ _ _⟩

theorem appendLoop_ok (f : Faults) (S : List net.IP) (st : AppendLoop)
    (h : (S.foldl (appendStep net f) st).errs = []) :
    st.errs = [] ∧ ∀ R, st.ipt "filter" "mongodb" = some R →
      (S.foldl (appendStep net f) st).ipt "filter" "mongodb"
        = some (R ++ S.map (acceptRule net)) := by
  induction S generalizing st with
  | nil => exact ⟨h, fun R hR => by simpa using hR⟩
  | cons a S ih =>
    rw [List.foldl_cons] at h ⊢
    obtain ⟨h1, h2⟩ := ih (appendStep net f st a) h
    obtain ⟨h3, h4⟩ := appendStep_ok net f st a h1
    refine ⟨h3, fun R hR => ?_⟩
    rw [h2 _ (h4 R hR)]
    simp

theorem BuildMongoChain_ok (f : Faults) (S : List net.IP) (t : IPTables)
    (h : (BuildMongoChain net f S t).2 = []) :
    (BuildMongoChain net f S t).1 "filter" "mongodb" = some (S.map (acceptRule net)) := by
  unfold BuildMongoChain at h ⊢
  simp only [] at h ⊢
  rw [seen_eq_nil] at h
  obtain ⟨h1, h2⟩ := appendLoop_ok net f S _ h.1
  have := h2 []
  simp only [List.nil_append] at this
  apply this
  revert h1
  unfold ChainExists ClearChain NewChain
  cases f.chainExists <;> cases f.clearChain <;> cases f.newChain <;>
    cases t "filter" "mongodb" <;> simp [seen, set_get]

theorem appendLoop_no_fault (S : List net.IP) (st : AppendLoop) (R : List Rulespec)
    (he : st.errs = []) (hc : st.ipt "filter" "mongodb" = some R) :
    (S.foldl (appendStep net Faults.none) st).errs = [] := by
  induction S generalizing st R with
  | nil => exact he
  | cons a S ih =>
    rw [List.foldl_cons]
    refine ih _ (R ++ [acceptRule net a]) ?_ ?_
    · simp [appendStep, GoLib.Append, Faults.none, hc, seen, he]
    · simp [appendStep, GoLib.Append, Faults.none, hc, set_get]

/-- When no command fails for a reason of the host, `BuildMongoChain` sees no error,
whatever the packet filter held before and whatever the snapshot. -/
theorem BuildMongoChain_no_fault (S : List net.IP) (t : IPTables) :
    (BuildMongoChain net Faults.none S t).2 = [] := by
  unfold BuildMongoChain
  simp only []
  rw [seen_eq_nil]
  cases ht : t "filter" "mongodb" with
  | none =>
    have hl := appendLoop_no_fault net S
      { ipt := t.set "filter" "mongodb" [], errs := [], calls := 0 } [] rfl
      (set_get t "filter" "mongodb" [])
    have hc := (appendLoop_ok net Faults.none S _ hl).2 [] (set_get t "filter" "mongodb" [])
    simp only [ChainExists, NewChain, ClearChain, Faults.none, ht, seen, Option.isSome,
      Bool.false_eq_true, if_false] at hl hc ⊢
    exact ⟨hl, by simp [ListRules, hc]⟩
  | some R =>
    have hl := appendLoop_no_fault net S
      { ipt := t.set "filter" "mongodb" [], errs := [], calls := 0 } [] rfl
      (set_get t "filter" "mongodb" [])
    have hc := (appendLoop_ok net Faults.none S _ hl).2 [] (set_get t "filter" "mongodb" [])
    simp only [ChainExists, NewChain, ClearChain, Faults.none, ht, seen, Option.isSome,
      Bool.false_eq_true, if_false, if_true] at hl hc ⊢
    exact ⟨hl, by simp [ListRules, hc]⟩

end Chain

/-! ## The claim about `BuildMongoChain` -/

section ChainClaims

open GoLib KubeMongo

/-- C8: for every prior state of the packet filter (chain `mongodb` absent, or present
with any rules) and every snapshot `S`, when every packet-filter command of
`BuildMongoChain(S)` succeeds (no error is seen), afterwards the chain `mongodb` of the
table `filter` exists and its rules are exactly one accept rule (source address, tcp,
destination port 27017) per address of `S`, in input order, with none of the prior
rules; for `S` empty (and no command failing) the chain exists and has no rules. -/
theorem BuildMongoChain_rebuilds_chain (net : Net) (f : Faults) (S : List net.IP)
    (t : IPTables) (h : (BuildMongoChain net f S t).2 = []) :
    (BuildMongoChain net f S t).1 "filter" "mongodb"
      = some (S.map (fun a =>
          ["-s", net.IPString a, "-p", "tcp", "-m", "tcp", "--dport", "27017", "-j", "ACCEPT"])) ∧
    (BuildMongoChain net Faults.none [] t).1 "filter" "mongodb" = some [] := by
  refine ⟨BuildMongoChain_ok net f S t h, ?_⟩
  exact BuildMongoChain_ok net Faults.none [] t (BuildMongoChain_no_fault net [] t)

/-- C8 at the snapshot `[10.0.0.1, 10.0.0.2]`, on a packet filter whose chain `mongodb`
held a rule for `10.0.0.9`. -/
theorem BuildMongoChain_rebuilds_chain_witness :
    (BuildMongoChain ipv4 Faults.none [ten1, ten2] staleChain).2 = [] ∧
    ((BuildMongoChain ipv4 Faults.none [ten1, ten2] staleChain).1 "filter" "mongodb"
      = some ([ten1, ten2].map (fun a =>
          ["-s", ipv4.IPString a, "-p", "tcp", "-m", "tcp", "--dport", "27017", "-j", "ACCEPT"])) ∧
    (BuildMongoChain ipv4 Faults.none [] staleChain).1 "filter" "mongodb" = some []) :=
  ⟨by decide, BuildMongoChain_rebuilds_chain ipv4 Faults.none [ten1, ten2] staleChain (by decide)⟩

end ChainClaims

/-! ## Facts about `buildNginx` and `writeNginx` -/

section Nginx

open GoLib KubeNginx

theorem foldl_append_singleton {α β : Type} (g : α → β) (l : List α) (init : List β) :
    l.foldl (fun acc i => acc ++ [g i]) init = init ++ l.map g := by
  induction l generalizing init with
  | nil => simp
  | cons a l ih => rw [List.foldl_cons, ih]; simp

theorem buildNginx_eq (net : Net) (S : List net.IP) :
    buildNginx net S =
      "upstream diy \x7b" ::
        S.map (fun a => "server " ++ net.IPString a ++ ":" ++ "32016" ++ " weight=100;") ++
      "\x7d" :: "upstream dockerui \x7b" ::
        S.map (fun a => "server " ++ net.IPString a ++ ":" ++ "32018" ++ " weight=100;") ++
      "\x7d" :: "upstream tryingadventure \x7b" ::
        S.map (fun a => "server " ++ net.IPString a ++ ":" ++ "32020" ++ " weight=100;") ++
      "\x7d" :: "upstream monitor \x7b" ::
        S.map (fun a => "server " ++ net.IPString a ++ ":" ++ "32699" ++ " weight=100;") ++
      ["\x7d"] := by
  have h1 : toString (32016 : Int) = "32016" := by decide
  have h2 : toString (32018 : Int) = "32018" := by decide
  have h3 : toString (32020 : Int) = "32020" := by decide
  have h4 : toString (32699 : Int) = "32699" := by decide
  have g1 : "upstream " ++ "diy" ++ " \x7b" = "upstream diy \x7b" := by decide
  have g2 : "upstream " ++ "dockerui" ++ " \x7b" = "upstream dockerui \x7b" := by decide
  have g3 : "upstream " ++ "tryingadventure" ++ " \x7b" = "upstream tryingadventure \x7b" := by
    decide
  have g4 : "upstream " ++ "monitor" ++ " \x7b" = "upstream monitor \x7b" := by decide
  unfold buildNginx
  simp only [List.nil_append, List.cons_append, List.foldl_cons, List.foldl_nil,
    foldl_append_singleton, h1, h2, h3, h4, g1, g2, g3, g4, List.append_assoc,
    List.singleton_append]

/-- With no failure of the host, `writeNginx` leaves the bytes of the lines, each
followed by a newline, over the start of what the file held before. -/
theorem writeNginx_no_fault (lines : List String) (content : String) :
    writeNginx Faults.none lines (some content)
      = (some (writeFromStart content
          (lines.foldl (fun buffered data => buffered ++ (data ++ "\n")) "")), []) := by
  have hflag : (O_CREATE ||| O_WRONLY) &&& O_TRUNC = 0 := by decide
  simp [writeNginx, OpenFile, Faults.none, hflag]

/-- What a file holds beyond the length of the written data survives the write. -/
theorem writeFromStart_keeps_tail (content data : String) :
    (writeFromStart content data).data.drop data.data.length
      = content.data.drop data.data.length := by
  simp [writeFromStart]

/-- A file no longer than the written data holds exactly the data afterwards. -/
theorem writeFromStart_of_short (content data : String)
    (h : content.data.length ≤ data.data.length) : writeFromStart content data = data := by
  unfold writeFromStart
  rw [List.drop_eq_nil_of_le h, List.append_nil]

end Nginx

/-! ## The claims about kube-nginx -/

section NginxClaims

open GoLib KubeNginx

/-- C7: for every snapshot `S`, `buildNginx(S)` consists of one upstream block per
configured target, in the order diy (32016), dockerui (32018), tryingadventure (32020),
monitor (32699); each block is the header line `upstream <name> {`, then one line
`server <address>:<port> weight=100;` per address of `S` in input order, then the line
`}`; the result has `4 * (|S| + 2)` lines. -/
theorem buildNginx_is_four_blocks (net : Net) (S : List net.IP) :
    buildNginx net S =
      "upstream diy \x7b" ::
        S.map (fun a => "server " ++ net.IPString a ++ ":" ++ "32016" ++ " weight=100;") ++
      "\x7d" :: "upstream dockerui \x7b" ::
        S.map (fun a => "server " ++ net.IPString a ++ ":" ++ "32018" ++ " weight=100;") ++
      "\x7d" :: "upstream tryingadventure \x7b" ::
        S.map (fun a => "server " ++ net.IPString a ++ ":" ++ "32020" ++ " weight=100;") ++
      "\x7d" :: "upstream monitor \x7b" ::
        S.map (fun a => "server " ++ net.IPString a ++ ":" ++ "32699" ++ " weight=100;") ++
      ["\x7d"] ∧
    (buildNginx net S).length = 4 * (S.length + 2) := by
  refine ⟨buildNginx_eq net S, ?_⟩
  rw [buildNginx_eq]
  simp only [List.length_cons, List.length_append, List.length_map, List.length_nil]
  omega

/-- C6 fails when the membership shrinks.  The file was written for the snapshot
`[10.0.0.1, 10.0.0.2]`; `writeNginx` then writes the configuration of `[10.0.0.1]`
without any failure of the host.  The file ends up with the new configuration followed
by the last bytes of the old one, because the open does not truncate. -/
theorem writeNginx_keeps_bytes_of_longer_file :
    (O_CREATE ||| O_WRONLY) &&& O_TRUNC = 0 ∧
    (writeNginx Faults.none (buildNginx ipv4 [ten1]) none).1
      = some ("upstream diy \x7b\nserver 10.0.0.1:32016 weight=100;\n\x7d\n" ++
          "upstream dockerui \x7b\nserver 10.0.0.1:32018 weight=100;\n\x7d\n" ++
          "upstream tryingadventure \x7b\nserver 10.0.0.1:32020 weight=100;\n\x7d\n" ++
          "upstream monitor \x7b\nserver 10.0.0.1:32699 weight=100;\n\x7d\n") ∧
    writeNginx Faults.none (buildNginx ipv4 [ten1])
        (writeNginx Faults.none (buildNginx ipv4 [ten1, ten2]) none).1
      = (some ("upstream diy \x7b\nserver 10.0.0.1:32016 weight=100;\n\x7d\n" ++
          "upstream dockerui \x7b\nserver 10.0.0.1:32018 weight=100;\n\x7d\n" ++
          "upstream tryingadventure \x7b\nserver 10.0.0.1:32020 weight=100;\n\x7d\n" ++
          "upstream monitor \x7b\nserver 10.0.0.1:32699 weight=100;\n\x7d\n" ++
          "eight=100;\nserver 10.0.0.2:32020 weight=100;\n\x7d\n" ++
          "upstream monitor \x7b\nserver 10.0.0.1:32699 weight=100;\n" ++
          "server 10.0.0.2:32699 weight=100;\n\x7d\n"), []) :=
  ⟨by decide, by decide, by decide⟩

/-- C9, as stated, fails.  The loop of kube-nginx starts and fetches the one node
`10.0.0.1`; the open of the upstream file fails, so nothing is written (there is still
no file) and an error was seen.  All the same the reload command is issued. -/
theorem nginx_reloads_after_failed_open :
    ((cycle ipv4 "/bin/systemctl" oneNode openFails (Loop.start ipv4 none)).toOption.map
      (fun s => (s.file, s.reloads, s.errs.length)))
      = some (none, [["/bin/systemctl", "reload", "nginx"]], 1) := by
  decide

/-- C9, amended: in the apply sequence of kube-nginx (`buildNginx`, then `writeNginx`,
then `NginxReload`), `NginxReload` is invoked once in every iteration in which `isDiff` is
true, whether or not opening or writing the destination file failed. -/
theorem nginx_reloads_whenever_snapshot_differs (net : Net) (systemctl : String)
    (r : ListResult) (f : Faults) (s : Loop net) (newHosts : List net.IP) (e : Option String)
    (hg : getKubeNodes net r = .ok (newHosts, e))
    (hd : isDiff net newHosts s.oldHosts = true) :
    ∃ s1, cycle net systemctl r f s = .ok s1 ∧
      s1.reloads = s.reloads ++ [[systemctl, "reload", "nginx"]] ∧
      s1.file = (writeNginx f (buildNginx net newHosts) s.file).1 := by
  refine ⟨_, nginx_cycle_of_fetch net systemctl r f s newHosts e hg, ?_⟩
  rw [hd]
  simp [NginxReload]

/-- The amended C9 at the first iteration of the loop, one node `10.0.0.1` fetched, the
open of the file failing. -/
theorem nginx_reloads_whenever_snapshot_differs_witness :
    getKubeNodes ipv4 oneNode = .ok ([ten1], none) ∧
    isDiff ipv4 [ten1] (Loop.start ipv4 none).oldHosts = true ∧
    ∃ s1, cycle ipv4 "/bin/systemctl" oneNode openFails (Loop.start ipv4 none) = .ok s1 ∧
      s1.reloads = (Loop.start ipv4 none).reloads ++ [["/bin/systemctl", "reload", "nginx"]] ∧
      s1.file = (writeNginx openFails (buildNginx ipv4 [ten1]) (Loop.start ipv4 none).file).1 :=
  ⟨rfl, by decide,
    nginx_reloads_whenever_snapshot_differs ipv4 "/bin/systemctl" oneNode openFails
      (Loop.start ipv4 none) [ten1] none rfl (by decide)⟩

end NginxClaims
